import Mathlib

/-!
Verification development for the Cover Crop Selection application (`app.py`).

The program is a single-page form: the user picks farming goals and cash
crops, the table of cover-crop records is filtered (all selected goal flags
equal "Yes", and the `Target Cash Crops` field matches a pattern built by
joining the selected crop names with `|`, evaluated case-insensitively by
`pandas.Series.str.contains`, i.e. as a regular expression), and the filtered
rows are sent to an external completion service whose reply is displayed and
stored in session state.

The embedding below models:
  * `CoverCropRecord` — one row of the CSV table;
  * the filter block of the button handler (`filterEngine`), including a
    model of the fragment of the Python regular-expression engine that the
    joined crop pattern exercises (literal characters, `.`, and `|`
    alternation, with `IGNORECASE`); other metacharacters are reported as
    compile-time errors by the model (see `parseBranch`);
  * `get_ai_summary` — the recommendation requester, parameterized by the
    external completion service;
  * the button handler itself (`buttonHandler`), with instrumentation fields
    recording whether the filter ran and how many times the service was
    invoked.
-/

/-- One row of the cover-crop table.  `flags` is the association list from
goal column name to the stored flag string (the CSV stores `"Yes"` or some
other string); the remaining fields are the named descriptive columns. -/
structure CoverCropRecord where
  coverCrop : String
  flags : List (String × String)
  targetCashCrops : String
  plantingMonths : String
  terminationMonths : String
  seedCostPerAcre : String
  terminationCostPerAcre : String
  notes : String
deriving DecidableEq, Repr

/-- The ten fixed goal columns (`goal_columns` in `app.py`). -/
def goal_columns : List String :=
  ["Cashcrop compatibility", "Erosion fighter", "Good grazing",
   "Grain harvest", "Lasting residue", "Mechanical forage",
   "Nitrogen source", "Quick growth", "Soil builder", "Weed fighter"]

/-- Row predicate of the goal step `filtered[filtered[goal] == "Yes"]`: the
flag column of the record for `g` holds the literal string `"Yes"`. -/
def flagIsYes (r : CoverCropRecord) (g : String) : Bool :=
  r.flags.lookup g == some "Yes"

/-- The goal-filter loop of the handler:
`for goal in selected_goals: filtered = filtered[filtered[goal] == "Yes"]`. -/
def applyGoalFilters (table : List CoverCropRecord) (goals : List String) :
    List CoverCropRecord :=
  goals.foldl (fun acc g => acc.filter (fun r => flagIsYes r g)) table

/-- The characters Python `str.strip()` removes (ASCII whitespace). -/
def pyWhitespace : List Char := [' ', '\t', '\n', '\r', '\x0b', '\x0c']

/-- Python `str.strip()`: drop leading and trailing whitespace. -/
def pyStrip (s : String) : String :=
  ⟨((s.data.dropWhile (pyWhitespace.contains ·)).reverse.dropWhile
      (pyWhitespace.contains ·)).reverse⟩

/-- Python `sep.join(parts)`. -/
def pyJoin (sep : List Char) : List (List Char) → List Char
  | [] => []
  | [p] => p
  | p :: ps => p ++ sep ++ pyJoin sep ps

/-- Model of the pattern join: `crop_pattern` is the bar-join of the
stripped selected crop names, as a character list. -/
def cropPattern (selected_cash_crops : List String) : List Char :=
  pyJoin ['|'] (selected_cash_crops.map (fun crop => (pyStrip crop).data))

/-- One token of the modelled regular-expression fragment: a literal
character or the `.` wildcard. -/
inductive RTok where
  | lit : Char → RTok
  | dot : RTok
deriving DecidableEq, Repr

/-- Regular-expression metacharacters other than `.` and `|` (which the
model supports).  A pattern containing any of these is outside the modelled
fragment of the Python `re` engine and is reported as a compile error; in
particular an unbalanced `(` or unclosed `[` is an error in `re` itself. -/
def reMetachars : List Char := ['*', '+', '?', '[', ']', '{', '}', '^', '$', '\\', '(', ')']

/-- A pattern character the model treats as matching only itself. -/
def literalChar (c : Char) : Bool :=
  !(reMetachars.contains c) && c != '.' && c != '|'

/-- Compile one `|`-free branch of a pattern into tokens.  Model of the
Python `re` compiler on the fragment {literal characters, `.`}; any other
metacharacter yields a compile error (`re` itself rejects some of these,
e.g. an unbalanced parenthesis, and the model does not commit to the rest). -/
def parseBranch : List Char → Except String (List RTok)
  | [] => .ok []
  | c :: rest => do
    let ts ← parseBranch rest
    if c = '.' then .ok (RTok.dot :: ts)
    else if reMetachars.contains c then
      .error ("regex metacharacter outside modelled fragment: " ++ String.singleton c)
    else .ok (RTok.lit c :: ts)

/-- Compile a pattern: split at top-level `|` into branches and compile each
branch.  `splitAtBar` mirrors how `re` reads `|` as alternation. -/
def splitAtBar : List Char → List (List Char)
  | [] => [[]]
  | c :: rest =>
    let bs := splitAtBar rest
    if c = '|' then [] :: bs
    else match bs with
      | [] => [[c]]
      | b :: tl => (c :: b) :: tl

/-- Compile the whole pattern to its list of alternation branches. -/
def compilePattern (p : List Char) : Except String (List (List RTok)) :=
  (splitAtBar p).mapM parseBranch

/-- Whether token `t` matches character `c` under `IGNORECASE`: a literal
matches up to ASCII case folding, `.` matches anything but a newline. -/
def tokMatches (t : RTok) (c : Char) : Bool :=
  match t with
  | .lit l => l.toLower == c.toLower
  | .dot => c != '\n'

/-- Whether the token sequence matches some prefix of `cs`. -/
def seqMatchesAt : List RTok → List Char → Bool
  | [], _ => true
  | _ :: _, [] => false
  | t :: ts, c :: cs => tokMatches t c && seqMatchesAt ts cs

/-- Truthiness of `re.search` for the compiled branches: some branch
matches at some position of the string. -/
def regexSearch (branches : List (List RTok)) (s : String) : Bool :=
  s.data.tails.any (fun suf => branches.any (fun b => seqMatchesAt b suf))

/-- The filter block of the `Get Cover Crop Recommendations` handler
(lines 81–85 of `app.py`): copy the table, keep rows whose flag equals
`"Yes"` for every selected goal, then keep rows whose `Target Cash Crops`
field matches the joined crop pattern case-insensitively.  A pattern the
modelled `re` fragment rejects surfaces as `Except.error` (in the program an
invalid pattern raises an uncaught exception at line 85). -/
def filterEngine (table : List CoverCropRecord) (goals crops : List String) :
    Except String (List CoverCropRecord) := do
  let afterGoals := applyGoalFilters table goals
  let branches ← compilePattern (cropPattern crops)
  .ok (afterGoals.filter (fun r => regexSearch branches r.targetCashCrops))

/-- Lower-cased character list of a string (ASCII case folding). -/
def lowerChars (s : String) : List Char := s.data.map Char.toLower

/-- Containment of `needle` as a contiguous sublist of `hay`:
some suffix of `hay` starts with `needle`. -/
def listContains (hay needle : List Char) : Bool :=
  hay.tails.any (fun suf => needle.isPrefixOf suf)

/-- Modelled from the spec: case-insensitive substring containment
("the record's target-cash-crops field contains (case-insensitive substring
match) at least one crop name"). -/
def containsCI (hay needle : String) : Bool :=
  listContains (lowerChars hay) (lowerChars needle)

/-- Case-sensitive substring containment, used to state that one displayed
string contains another. -/
def strContains (hay needle : String) : Bool :=
  listContains hay.data needle.data

/-- One chat message of the completion request. -/
structure ChatMessage where
  role : String
  content : String
deriving DecidableEq, Repr

/-- The parameters of one call to the external completion service.
The temperature literal is embedded as the exact rational of the source
literal `0.7`. -/
structure CompletionRequest where
  model : String
  messages : List ChatMessage
  temperature : ℚ
  max_tokens : ℕ
deriving DecidableEq, Repr

/-- One completion choice of a service response (`choice.message.content`). -/
structure Choice where
  content : String
deriving DecidableEq, Repr

/-- A response of the external completion service. -/
structure CompletionResponse where
  choices : List Choice
deriving DecidableEq, Repr

/-- The external completion service, treated as an opaque fallible function
from a request to a response: `Except.error d` models the service raising a
fault whose description is `d`. -/
def CompletionService : Type := CompletionRequest → Except String CompletionResponse

/-- The user prompt built by `get_ai_summary` (the f-string of lines 31–40). -/
def recommendationPrompt (table_text : String) (user_goals user_crops : List String) :
    String :=
  "\nYou are a professional agricultural advisor.\nA farmer is rotating the following crops: "
    ++ String.intercalate ", " user_crops
    ++ " and has selected these farming goals: "
    ++ String.intercalate ", " user_goals
    ++ ".\nBased on the following cover crop data, recommend the best one or two options and explain why clearly using agronomic reasoning.\n\nCover crop data:\n"
    ++ table_text
    ++ "\n\nRespond in a helpful, professional tone starting with: Based on your farming goals, we recommend...\n    "

/-- The request `get_ai_summary` hands to `client.chat.completions.create`
(lines 41–49): fixed model, system message, the built prompt, temperature
`0.7` and `max_tokens` 600. -/
def aiRequest (table_text : String) (user_goals user_crops : List String) :
    CompletionRequest :=
  { model := "llama3-70b-8192",
    messages :=
      [⟨"system", "You are a smart farm advisor helping farmers choose the best cover crops using expert agronomic knowledge."⟩,
       ⟨"user", recommendationPrompt table_text user_goals user_crops⟩],
    temperature := 0.7,
    max_tokens := 600 }

/-- Model of `get_ai_summary` (lines 29–50), parameterized by the external
service: sends the fixed-parameter request and returns
`response.choices[0].message.content`; an empty `choices` list models the
`IndexError` that `choices[0]` would raise. -/
def get_ai_summary (svc : CompletionService) (table_text : String)
    (user_goals user_crops : List String) : Except String String := do
  let response ← svc (aiRequest table_text user_goals user_crops)
  match response.choices with
  | [] => .error "list index out of range"
  | c :: _ => .ok c.content

/-- Serialization of the display-column table used as `table_text`
(`recommendation_table.to_csv(index=False)`), modelled as a comma/newline
join of header and rows; the claims do not depend on CSV quoting detail. -/
def toCsv (rows : List (List String)) : String :=
  String.intercalate "\n" (rows.map (String.intercalate ",")) ++ "\n"

/-- Header of the display-column subset (`display_cols`, lines 91–94). -/
def displayHeader : List String :=
  ["Cover Crop", "Planting Months", "TerminationMonths",
   "SeedCostPerAcre", "TerminationCostPerAcre", "Notes"]

/-- The display-column projection `filtered[display_cols]` of one record. -/
def displayRow (r : CoverCropRecord) : List String :=
  [r.coverCrop, r.plantingMonths, r.terminationMonths,
   r.seedCostPerAcre, r.terminationCostPerAcre, r.notes]

/-- The session state the handler reads and writes: the loaded table `df`
(read-only in the program) and `st.session_state.ai_response`. -/
structure AppState where
  df : List CoverCropRecord
  ai_response : String
deriving DecidableEq, Repr

/-- One user-visible output of the handler (`st.warning`, `st.error`,
`st.success`, `st.dataframe`, `st.write`). -/
inductive Display where
  | warn : String → Display
  | err : String → Display
  | success : String → Display
  | table : List (List String) → Display
  | text : String → Display
deriving DecidableEq, Repr

/-- The observable outcome of one button press: the new session state, the
displayed outputs in order, plus instrumentation recording whether the
filter block ran and how many times the completion service was invoked. -/
structure HandlerResult where
  state : AppState
  displays : List Display
  filterRan : Bool
  serviceCalls : ℕ
deriving DecidableEq, Repr

/-- The `Get Cover Crop Recommendations` button handler (lines 77–104),
parameterized by the external completion service.  `Except.error` models an
uncaught exception escaping the handler (only an invalid crop pattern can
cause one: the `try` of line 99 wraps only the `get_ai_summary` call, and a
fault there is caught and shown as `AI Error: …`). -/
def buttonHandler (st : AppState) (selected_goals selected_cash_crops : List String)
    (svc : CompletionService) : Except String HandlerResult :=
  if selected_goals.isEmpty || selected_cash_crops.isEmpty then
    .ok { state := st,
          displays := [.warn "Please select at least one goal and one or more cash crops."],
          filterRan := false, serviceCalls := 0 }
  else
    match filterEngine st.df selected_goals selected_cash_crops with
    | .error e => .error e
    | .ok filtered =>
      if filtered.isEmpty then
        .ok { state := st, displays := [.err "No matching cover crops found."],
              filterRan := true, serviceCalls := 0 }
      else
        let rows := filtered.map displayRow
        let table_text := toCsv (displayHeader :: rows)
        let shown : List Display :=
          [.success ("Found " ++ toString filtered.length ++ " matching cover crop(s)."),
           .table rows]
        match get_ai_summary svc table_text selected_goals selected_cash_crops with
        | .ok text =>
          .ok { state := { df := st.df, ai_response := text },
                displays := shown ++ [.text text],
                filterRan := true, serviceCalls := 1 }
        | .error e =>
          .ok { state := st,
                displays := shown ++ [.err ("AI Error: " ++ e)],
                filterRan := true, serviceCalls := 1 }

/-! ### Concrete instances used in witnesses and counterexamples -/

/-- A sample record: a soil-building cover crop rotated with corn and
soybeans. -/
def rClover : CoverCropRecord :=
  { coverCrop := "Crimson Clover",
    flags := [("Cashcrop compatibility", "Yes"), ("Soil builder", "Yes"),
      ("Weed fighter", "No")],
    targetCashCrops := "Corn, Soybeans",
    plantingMonths := "Aug-Sep", terminationMonths := "Apr",
    seedCostPerAcre := "25", terminationCostPerAcre := "10", notes := "legume" }

/-- A record whose crop field `"Sopg"` matches the pattern `So.g` as a
regular expression but does not contain `"So.g"` as a substring. -/
def rSopg : CoverCropRecord :=
  { coverCrop := "Cereal Rye",
    flags := [("Soil builder", "Yes")],
    targetCashCrops := "Sopg",
    plantingMonths := "Sep", terminationMonths := "May",
    seedCostPerAcre := "20", terminationCostPerAcre := "12", notes := "" }

/-- A completion service that always succeeds with one choice. -/
def svcOk : CompletionService :=
  fun _ => Except.ok ⟨[⟨"Based on your farming goals, we recommend..."⟩]⟩

/-- A completion service that always raises a fault. -/
def svcFault : CompletionService := fun _ => Except.error "connection error"

/-! ### Helper lemmas about the embedded operations -/

theorem isEmpty_false_of_ne_nil {α : Type} {l : List α} (h : l ≠ []) :
    l.isEmpty = false := by
  cases l with
  | nil => exact absurd rfl h
  | cons a as => rfl

theorem applyGoalFilters_nil (t : List CoverCropRecord) : applyGoalFilters t [] = t := rfl

theorem applyGoalFilters_cons (t : List CoverCropRecord) (g : String) (gs : List String) :
    applyGoalFilters t (g :: gs) =
      applyGoalFilters (t.filter (fun r => flagIsYes r g)) gs := rfl

/-- The goal-filter loop filters by the conjunction of the per-goal flags. -/
theorem applyGoalFilters_eq_filter (t : List CoverCropRecord) (gs : List String) :
    applyGoalFilters t gs = t.filter (fun r => gs.all (fun g => flagIsYes r g)) := by
  induction gs generalizing t with
  | nil => simp [applyGoalFilters_nil]
  | cons g gs ih =>
    rw [applyGoalFilters_cons, ih, List.filter_filter]
    apply List.filter_congr
    intro r _
    simp [List.all_cons, Bool.and_comm]

theorem mem_applyGoalFilters (t : List CoverCropRecord) (gs : List String)
    (r : CoverCropRecord) :
    r ∈ applyGoalFilters t gs ↔ r ∈ t ∧ ∀ g ∈ gs, flagIsYes r g = true := by
  simp [applyGoalFilters_eq_filter, List.mem_filter, List.all_eq_true]

/-- Unfolding of the filter block once the crop pattern compiles. -/
theorem filterEngine_ok (t : List CoverCropRecord) (goals crops : List String)
    (bs : List (List RTok)) (h : compilePattern (cropPattern crops) = Except.ok bs) :
    filterEngine t goals crops =
      Except.ok (t.filter (fun r =>
        regexSearch bs r.targetCashCrops && goals.all (fun g => flagIsYes r g))) := by
  unfold filterEngine
  rw [h]
  show Except.ok ((applyGoalFilters t goals).filter
      (fun r => regexSearch bs r.targetCashCrops)) = _
  rw [applyGoalFilters_eq_filter, List.filter_filter]

/-- A failing pattern compilation makes the whole filter block fail. -/
theorem filterEngine_error (t : List CoverCropRecord) (goals crops : List String)
    (e : String) (h : compilePattern (cropPattern crops) = Except.error e) :
    filterEngine t goals crops = Except.error e := by
  unfold filterEngine
  rw [h]
  rfl

theorem twoAny_comm {α β : Type} (l : List α) (m : List β) (f : α → β → Bool) :
    (l.any fun a => m.any fun b => f a b) = (m.any fun b => l.any fun a => f a b) := by
  rw [Bool.eq_iff_iff]
  simp only [List.any_eq_true]
  tauto

theorem isPrefixOf_self (l : List Char) : l.isPrefixOf l = true := by
  induction l with
  | nil => rfl
  | cons c cs ih => simp [List.isPrefixOf, ih]

theorem self_mem_tails {α : Type} (l : List α) : l ∈ l.tails := by
  cases l <;> simp [List.tails_cons]

/-- A list occurs in any list that extends it on the left. -/
theorem listContains_append_left (m l : List Char) : listContains (m ++ l) l = true := by
  induction m with
  | nil =>
    simp only [List.nil_append, listContains, List.any_eq_true]
    exact ⟨l, self_mem_tails l, isPrefixOf_self l⟩
  | cons c m ih =>
    simp only [List.cons_append, listContains, List.tails_cons, List.any_cons] at ih ⊢
    rw [ih]
    simp

/-- The function `strContains` finds a string appended on the right. -/
theorem strContains_append (pre s : String) : strContains (pre ++ s) s = true := by
  have : (pre ++ s).data = pre.data ++ s.data := String.data_append pre s
  rw [strContains, this]
  exact listContains_append_left pre.data s.data

/-- A branch of literal tokens matches a prefix of `suf` exactly when the
case-folded branch characters are a prefix of the case-folded `suf`. -/
theorem seqMatchesAt_lit (cs suf : List Char) :
    seqMatchesAt (cs.map RTok.lit) suf =
      (cs.map Char.toLower).isPrefixOf (suf.map Char.toLower) := by
  induction cs generalizing suf with
  | nil => cases suf <;> rfl
  | cons c cs ih =>
    cases suf with
    | nil => rfl
    | cons d suf' => simp [seqMatchesAt, tokMatches, List.isPrefixOf, ih]

/-- Searching for a case-folded prefix among the tails of `s` is containment
in the case-folded list. -/
theorem tailsAny_lower (s : List Char) (n : List Char) :
    (s.tails.any fun suf => n.isPrefixOf (suf.map Char.toLower)) =
      listContains (s.map Char.toLower) n := by
  unfold listContains
  rw [List.map_tails, List.any_map]
  rfl

/-- On branches of literal tokens `regexSearch` is exactly disjunctive
case-insensitive substring containment. -/
theorem regexSearch_lits (parts : List (List Char)) (s : String) :
    regexSearch (parts.map (fun p => p.map RTok.lit)) s =
      parts.any (fun p => listContains (lowerChars s) (p.map Char.toLower)) := by
  rw [Bool.eq_iff_iff]
  unfold regexSearch
  simp only [List.any_eq_true, List.mem_map]
  constructor
  · rintro ⟨suf, hsuf, b, ⟨p, hp, rfl⟩, hm⟩
    refine ⟨p, hp, ?_⟩
    rw [seqMatchesAt_lit] at hm
    have h := (tailsAny_lower s.data (p.map Char.toLower)).symm
    rw [lowerChars, h]
    simp only [List.any_eq_true]
    exact ⟨suf, hsuf, hm⟩
  · rintro ⟨p, hp, hc⟩
    rw [lowerChars, ← tailsAny_lower s.data (p.map Char.toLower)] at hc
    simp only [List.any_eq_true] at hc
    obtain ⟨suf, hsuf, hm⟩ := hc
    exact ⟨suf, hsuf, p.map RTok.lit, ⟨p, hp, rfl⟩, by rw [seqMatchesAt_lit]; exact hm⟩

/-- An empty branch matches every string (the empty pattern case). -/
theorem regexSearch_empty_branch (s : String) : regexSearch [[]] s = true := by
  simp only [regexSearch, List.any_eq_true]
  exact ⟨s.data, self_mem_tails s.data, by simp [seqMatchesAt]⟩

/-- A branch of literal-only characters compiles to its literal tokens. -/
theorem parseBranch_lits (p : List Char) (h : ∀ c ∈ p, literalChar c = true) :
    parseBranch p = Except.ok (p.map RTok.lit) := by
  induction p with
  | nil => rfl
  | cons c rest ih =>
    have hc := h c (List.mem_cons_self c rest)
    have hrest := ih (fun x hx => h x (List.mem_cons_of_mem c hx))
    have hmeta : reMetachars.contains c = false := by
      rcases hcm : reMetachars.contains c with _ | _
      · rfl
      · rw [literalChar, hcm] at hc
        simp at hc
    have hdot : ¬(c = '.') := by
      intro e
      rw [literalChar, e] at hc
      simp at hc
    show (do
        let ts ← parseBranch rest
        if c = '.' then Except.ok (RTok.dot :: ts)
        else if reMetachars.contains c then
          Except.error ("regex metacharacter outside modelled fragment: " ++ String.singleton c)
        else Except.ok (RTok.lit c :: ts)) = Except.ok ((c :: rest).map RTok.lit)
    rw [hrest]
    show (if c = '.' then Except.ok (RTok.dot :: rest.map RTok.lit)
        else if reMetachars.contains c then
          Except.error ("regex metacharacter outside modelled fragment: " ++ String.singleton c)
        else Except.ok (RTok.lit c :: rest.map RTok.lit)) = _
    rw [if_neg hdot, hmeta]
    rfl

/-- A bar-free branch is its own single alternative. -/
theorem splitAtBar_no_bar (p : List Char) (h : '|' ∉ p) : splitAtBar p = [p] := by
  induction p with
  | nil => rfl
  | cons c rest ih =>
    have hc : ¬(c = '|') := fun e => h (e ▸ List.mem_cons_self c rest)
    have hr := ih (fun hx => h (List.mem_cons_of_mem c hx))
    show (let bs := splitAtBar rest
      if c = '|' then [] :: bs
      else match bs with
        | [] => [[c]]
        | b :: tl => (c :: b) :: tl) = [c :: rest]
    rw [hr]
    simp [hc]

/-- Splitting recognizes the first top-level bar after a bar-free chunk. -/
theorem splitAtBar_append_bar (p rest : List Char) (h : '|' ∉ p) :
    splitAtBar (p ++ '|' :: rest) = p :: splitAtBar rest := by
  induction p with
  | nil =>
    show (let bs := splitAtBar rest
      if '|' = '|' then [] :: bs
      else match bs with
        | [] => [['|']]
        | b :: tl => ('|' :: b) :: tl) = [] :: splitAtBar rest
    simp
  | cons c p' ih =>
    have hc : ¬(c = '|') := fun e => h (e ▸ List.mem_cons_self c p')
    have hr := ih (fun hx => h (List.mem_cons_of_mem c hx))
    show (let bs := splitAtBar (p' ++ '|' :: rest)
      if c = '|' then [] :: bs
      else match bs with
        | [] => [[c]]
        | b :: tl => (c :: b) :: tl) = (c :: p') :: splitAtBar rest
    rw [hr]
    simp [hc]

/-- Splitting the `|`-join of bar-free chunks recovers the chunks. -/
theorem splitAtBar_join (parts : List (List Char)) (hne : parts ≠ [])
    (h : ∀ p ∈ parts, '|' ∉ p) :
    splitAtBar (pyJoin ['|'] parts) = parts := by
  induction parts with
  | nil => exact absurd rfl hne
  | cons p ps ih =>
    cases ps with
    | nil => exact splitAtBar_no_bar p (h p (List.mem_cons_self p []))
    | cons q qs =>
      have hjoin : pyJoin ['|'] (p :: q :: qs) = p ++ '|' :: pyJoin ['|'] (q :: qs) := by
        show p ++ ['|'] ++ pyJoin ['|'] (q :: qs) = p ++ '|' :: pyJoin ['|'] (q :: qs)
        rw [List.append_assoc]
        rfl
      rw [hjoin, splitAtBar_append_bar p _ (h p (List.mem_cons_self p (q :: qs))),
        ih (List.cons_ne_nil q qs) (fun x hx => h x (List.mem_cons_of_mem p hx))]

/-- A literal character is not the bar. -/
theorem literalChar_ne_bar (c : Char) (h : literalChar c = true) : ¬(c = '|') := by
  intro e
  rw [literalChar, e] at h
  simp at h

/-- Compiling the `|`-join of literal-only chunks yields the literal
branches, one per chunk. -/
theorem compilePattern_lits (parts : List (List Char)) (hne : parts ≠ [])
    (h : ∀ p ∈ parts, ∀ c ∈ p, literalChar c = true) :
    compilePattern (pyJoin ['|'] parts) =
      Except.ok (parts.map (fun p => p.map RTok.lit)) := by
  unfold compilePattern
  rw [splitAtBar_join parts hne
    (fun p hp hbar => literalChar_ne_bar '|' (h p hp '|' hbar) rfl)]
  clear hne
  induction parts with
  | nil => rfl
  | cons p ps ih =>
    rw [List.mapM_cons, parseBranch_lits p (h p (List.mem_cons_self p ps)),
      ih (fun x hx => h x (List.mem_cons_of_mem p hx))]
    rfl

/-- C2 (counterexample): invoked directly with an empty crop selection the
engine does not return the empty sequence — the empty pattern matches every
record, so the goal-filtered table comes back whole. -/
theorem filterEngine_empty_crops_cex :
    filterEngine [rClover] ["Soil builder"] [] = Except.ok [rClover] ∧
      Except.ok [rClover] ≠
        (Except.ok ([] : List CoverCropRecord) : Except String (List CoverCropRecord)) := by
  constructor
  · rfl
  · simp

/-- C2 (amended): if the filter engine is invoked despite the caller-level
guard, an empty goal selection leaves the goal stage as the identity, so the
table is filtered only by crops; an empty crop selection yields the empty
pattern, which matches every record, so the engine returns the goal-filtered
table (not the empty sequence). -/
theorem filterEngine_empty_selections (t : List CoverCropRecord)
    (goals crops : List String) (bs : List (List RTok))
    (hbs : compilePattern (cropPattern crops) = Except.ok bs) :
    filterEngine t [] crops =
        Except.ok (t.filter (fun r => regexSearch bs r.targetCashCrops)) ∧
      filterEngine t goals [] = Except.ok (applyGoalFilters t goals) := by
  constructor
  · rw [filterEngine_ok t [] crops bs hbs]
    congr 1
    apply List.filter_congr
    intro r _
    simp
  · have h0 : compilePattern (cropPattern []) = Except.ok [[]] := rfl
    rw [filterEngine_ok t goals [] [[]] h0, applyGoalFilters_eq_filter]
    congr 1
    apply List.filter_congr
    intro r _
    rw [regexSearch_empty_branch, Bool.true_and]

/-- C4: a successful filter result on non-empty selections is an ordered
subsequence of the input table: it is a sublist of the table (hence drawn
from it, in the table's relative order), every member passes every selected
goal flag, and every member matches the compiled crop pattern. -/
theorem filterResult_ordered_subsequence (t : List CoverCropRecord)
    (goals crops : List String) (res : List CoverCropRecord)
    (hg : goals ≠ []) (hc : crops ≠ [])
    (h : filterEngine t goals crops = Except.ok res) :
    res.Sublist t ∧
      (∀ r ∈ res, ∀ g ∈ goals, flagIsYes r g = true) ∧
      ∃ bs, compilePattern (cropPattern crops) = Except.ok bs ∧
        ∀ r ∈ res, regexSearch bs r.targetCashCrops = true := by
  cases hbs : compilePattern (cropPattern crops) with
  | error e =>
    rw [filterEngine_error t goals crops e hbs] at h
    simp at h
  | ok bs =>
    rw [filterEngine_ok t goals crops bs hbs] at h
    injection h with h'
    refine ⟨?_, ?_, bs, rfl, ?_⟩
    · rw [← h']
      exact List.filter_sublist t
    · intro r hr
      rw [← h'] at hr
      have hcond := (List.mem_filter.mp hr).2
      rw [Bool.and_eq_true] at hcond
      exact fun g hgm => List.all_eq_true.mp hcond.2 g hgm
    · intro r hr
      rw [← h'] at hr
      have hcond := (List.mem_filter.mp hr).2
      rw [Bool.and_eq_true] at hcond
      exact hcond.1

/-- C5: the per-goal filtering steps commute — any permutation of the goal
list yields the same result sequence — and the result equals the
intersection of the per-goal result sets restricted to the table's order. -/
theorem goalFilters_commute (t : List CoverCropRecord) (goals goals2 : List String)
    (hperm : goals.Perm goals2) :
    applyGoalFilters t goals = applyGoalFilters t goals2 ∧
      applyGoalFilters t goals =
        t.filter (fun r =>
          decide (∀ g ∈ goals, r ∈ t.filter (fun x => flagIsYes x g))) := by
  constructor
  · rw [applyGoalFilters_eq_filter, applyGoalFilters_eq_filter]
    apply List.filter_congr
    intro r _
    rw [Bool.eq_iff_iff]
    simp only [List.all_eq_true]
    exact ⟨fun hall g hgm => hall g (hperm.mem_iff.mpr hgm),
      fun hall g hgm => hall g (hperm.mem_iff.mp hgm)⟩
  · rw [applyGoalFilters_eq_filter]
    apply List.filter_congr
    intro r hr
    rw [Bool.eq_iff_iff]
    simp only [List.all_eq_true, decide_eq_true_eq, List.mem_filter]
    constructor
    · intro hall g hgm
      exact ⟨hr, hall g hgm⟩
    · intro hall g hgm
      exact (hall g hgm).2

/-- C6: filtering is deterministic — two successful invocations with
identical arguments agree — and idempotent: re-running the engine on its own
output with the same arguments returns that output unchanged.  (In the
embedding the engine is a pure function of its arguments, so determinism is
also definitional.) -/
theorem filterEngine_idempotent (t : List CoverCropRecord) (goals crops : List String)
    (res : List CoverCropRecord) (h : filterEngine t goals crops = Except.ok res) :
    (∀ res2, filterEngine t goals crops = Except.ok res2 → res2 = res) ∧
      filterEngine res goals crops = Except.ok res := by
  constructor
  · intro res2 h2
    rw [h] at h2
    injection h2 with h2'
    exact h2'.symm
  · cases hbs : compilePattern (cropPattern crops) with
    | error e =>
      rw [filterEngine_error t goals crops e hbs] at h
      simp at h
    | ok bs =>
      rw [filterEngine_ok t goals crops bs hbs] at h
      injection h with h'
      rw [filterEngine_ok res goals crops bs hbs, ← h', List.filter_filter]
      congr 1
      apply List.filter_congr
      intro r _
      exact Bool.and_self _

/-- C7: an empty goal or crop selection makes the button handler warn and
stop: the inline warning is the only display, the filter block does not run,
the completion service is never invoked, and the session state is returned
unchanged. -/
theorem empty_selection_guard (st : AppState) (goals crops : List String)
    (svc : CompletionService) (h : goals = [] ∨ crops = []) :
    buttonHandler st goals crops svc =
      Except.ok { state := st,
                  displays := [Display.warn "Please select at least one goal and one or more cash crops."],
                  filterRan := false, serviceCalls := 0 } := by
  have hcond : (goals.isEmpty || crops.isEmpty) = true := by
    rcases h with h | h <;> rw [h] <;> simp
  unfold buttonHandler
  rw [hcond]
  rfl

/-- C9: the loaded table is never mutated — any normally-returning run of
the button handler (the only user action that touches the table; filtering
works on `df.copy()`) leaves the `df` component of the session state exactly
as it was. -/
theorem table_never_mutated (st : AppState) (goals crops : List String)
    (svc : CompletionService) (out : HandlerResult)
    (h : buttonHandler st goals crops svc = Except.ok out) :
    out.state.df = st.df := by
  unfold buttonHandler at h
  split at h
  · injection h with h'
    rw [← h']
  · split at h
    · simp at h
    · split at h
      · injection h with h'
        rw [← h']
      · dsimp only [] at h
        split at h
        · injection h with h'
          rw [← h']
        · injection h with h'
          rw [← h']

/-- The requester `get_ai_summary` propagates a service fault unchanged. -/
theorem get_ai_summary_fault (d table_text : String) (gs cs : List String) :
    get_ai_summary (fun _ => Except.error d) table_text gs cs = Except.error d := rfl

/-- C3: a fault `d` raised by the completion service during a recommendation
request is caught at the call site: the handler returns normally (no crash),
the service is consulted exactly once (no retry), the displayed outputs end
with the error string `"AI Error: " ++ d` — which contains the fault's
description — and the session state (in particular the stored
`ai_response`) is exactly what it was before the call. -/
theorem service_fault_handled (st : AppState) (goals crops : List String)
    (d : String) (res : List CoverCropRecord)
    (hg : goals ≠ []) (hc : crops ≠ [])
    (hf : filterEngine st.df goals crops = Except.ok res) (hne : res ≠ []) :
    buttonHandler st goals crops (fun _ => Except.error d) =
      Except.ok { state := st,
                  displays := [Display.success ("Found " ++ toString res.length ++ " matching cover crop(s)."),
                    Display.table (res.map displayRow),
                    Display.err ("AI Error: " ++ d)],
                  filterRan := true, serviceCalls := 1 } ∧
      strContains ("AI Error: " ++ d) d = true := by
  constructor
  · have hcond : (goals.isEmpty || crops.isEmpty) = false := by
      rw [isEmpty_false_of_ne_nil hg, isEmpty_false_of_ne_nil hc]
      rfl
    unfold buttonHandler
    rw [hcond, if_neg (by simp), hf]
    dsimp only []
    rw [isEmpty_false_of_ne_nil hne, if_neg (by simp), get_ai_summary_fault]
    rfl
  · exact strContains_append "AI Error: " d

/-- C8: the recommendation requester always hands the completion service the
fixed parameters — model `"llama3-70b-8192"`, temperature `0.7`,
`max_tokens` 600 — depends on the service only through its answer to that
one request, and on success returns the first completion choice's text
verbatim. -/
theorem requester_fixed_params (svc : CompletionService) (t : String)
    (gs cs : List String) :
    (aiRequest t gs cs).model = "llama3-70b-8192" ∧
      (aiRequest t gs cs).temperature = 0.7 ∧
      (aiRequest t gs cs).max_tokens = 600 ∧
      (∀ svc2 : CompletionService,
        svc2 (aiRequest t gs cs) = svc (aiRequest t gs cs) →
          get_ai_summary svc2 t gs cs = get_ai_summary svc t gs cs) ∧
      ∀ c rest, svc (aiRequest t gs cs) = Except.ok ⟨c :: rest⟩ →
        get_ai_summary svc t gs cs = Except.ok c.content := by
  refine ⟨rfl, rfl, rfl, ?_, ?_⟩
  · intro svc2 h
    unfold get_ai_summary
    rw [h]
  · intro c rest h
    unfold get_ai_summary
    rw [h]
    rfl

/-- For a selection of trimmed, regex-literal crop names the pattern
compiles to one literal branch per name. -/
theorem compilePattern_crops (crops : List String) (hc : crops ≠ [])
    (hlit : ∀ c ∈ crops, ∀ ch ∈ (pyStrip c).data, literalChar ch = true) :
    compilePattern (cropPattern crops) =
      Except.ok ((crops.map (fun c => (pyStrip c).data)).map (fun p => p.map RTok.lit)) := by
  unfold cropPattern
  apply compilePattern_lits
  · intro hmap
    exact hc (List.map_eq_nil_iff.mp hmap)
  · intro p hp ch hch
    obtain ⟨cr, hcr, rfl⟩ := List.mem_map.mp hp
    exact hlit cr hcr ch hch

/-- C1 (amended): provided every selected crop name is whitespace-trimmed
and consists only of regex-literal characters (no metacharacters — see the
counterexample, where a `.` in a name makes the regex-based code deviate
from substring matching), a record appears in the filter result iff its flag
column equals `"Yes"` for every selected goal and its target-cash-crops
field contains at least one selected crop name as a case-insensitive
substring. -/
theorem filter_membership_iff (t : List CoverCropRecord) (goals crops : List String)
    (hg : goals ≠ []) (hc : crops ≠ [])
    (hcrops : ∀ c ∈ crops, pyStrip c = c ∧ ∀ ch ∈ c.data, literalChar ch = true) :
    ∃ res, filterEngine t goals crops = Except.ok res ∧
      ∀ r, r ∈ res ↔
        r ∈ t ∧ (∀ g ∈ goals, flagIsYes r g = true) ∧
          ∃ c ∈ crops, containsCI r.targetCashCrops c = true := by
  have hparts : compilePattern (cropPattern crops) =
      Except.ok ((crops.map (fun c => (pyStrip c).data)).map (fun p => p.map RTok.lit)) := by
    apply compilePattern_crops crops hc
    intro c hcm ch hch
    exact (hcrops c hcm).2 ch (by rw [← (hcrops c hcm).1]; exact hch)
  refine ⟨_, filterEngine_ok t goals crops _ hparts, ?_⟩
  intro r
  rw [List.mem_filter]
  constructor
  · rintro ⟨hrt, hcond⟩
    rw [Bool.and_eq_true] at hcond
    obtain ⟨hregex, hall⟩ := hcond
    refine ⟨hrt, fun g hgm => List.all_eq_true.mp hall g hgm, ?_⟩
    rw [regexSearch_lits, List.any_eq_true] at hregex
    obtain ⟨p, hp, hcl⟩ := hregex
    obtain ⟨cr, hcr, rfl⟩ := List.mem_map.mp hp
    refine ⟨cr, hcr, ?_⟩
    rw [(hcrops cr hcr).1] at hcl
    exact hcl
  · rintro ⟨hrt, hall, cr, hcr, hci⟩
    refine ⟨hrt, ?_⟩
    rw [Bool.and_eq_true]
    refine ⟨?_, List.all_eq_true.mpr hall⟩
    rw [regexSearch_lits, List.any_eq_true]
    refine ⟨(pyStrip cr).data, List.mem_map.mpr ⟨cr, hcr, rfl⟩, ?_⟩
    rw [(hcrops cr hcr).1]
    exact hci

/-- C1 (counterexample): with crop selection `["So.g"]` — a name containing
the regex metacharacter `.` — the record whose target-cash-crops field is
`"Sopg"` appears in the filter result although that field does not contain
`"So.g"` as a case-insensitive substring and the record's goal flag is
`"Yes"`, so the claimed `iff` fails on the code. -/
theorem filter_membership_iff_cex :
    filterEngine [rSopg] ["Soil builder"] ["So.g"] = Except.ok [rSopg] ∧
      rSopg ∈ [rSopg] ∧
      (∀ g ∈ ["Soil builder"], flagIsYes rSopg g = true) ∧
      ∀ c ∈ ["So.g"], containsCI rSopg.targetCashCrops c = false := by
  refine ⟨rfl, ?_, ?_, ?_⟩
  · simp
  · decide
  · decide

/-- Mapping then `any` equals `any` of the composition. -/
theorem any_map_fun {α β : Type} (l : List α) (f : α → β) (p : β → Bool) :
    (l.map f).any p = l.any (fun a => p (f a)) := by
  induction l with
  | nil => rfl
  | cons a as ih => simp [List.any_cons, ih]

/-- C10: the crop-matching step joins the selected names with `|` and
evaluates the result as a regular expression over the crop field; for
selections of regex-literal names this coincides with case-insensitive
substring matching against any of the (stripped) names, but a name
containing a metacharacter deviates: the selection `["So.g"]` compiles to a
pattern with a `.` wildcard that matches the field `"Sopg"`, which does not
contain `"So.g"` as a substring (and a pattern with an unbalanced
parenthesis does not compile at all, surfacing as an error instead of a
result). -/
theorem crop_regex_vs_substring (crops : List String) (hc : crops ≠ [])
    (hlit : ∀ c ∈ crops, ∀ ch ∈ (pyStrip c).data, literalChar ch = true) :
    (∃ bs, compilePattern (cropPattern crops) = Except.ok bs ∧
        ∀ s : String, regexSearch bs s = crops.any (fun c => containsCI s (pyStrip c))) ∧
      compilePattern (cropPattern ["So.g"]) =
        Except.ok [[RTok.lit 'S', RTok.lit 'o', RTok.dot, RTok.lit 'g']] ∧
      regexSearch [[RTok.lit 'S', RTok.lit 'o', RTok.dot, RTok.lit 'g']] "Sopg" = true ∧
      containsCI "Sopg" "So.g" = false ∧
      (∃ e, compilePattern (cropPattern ["Corn("]) = Except.error e) := by
  refine ⟨?_, rfl, rfl, by decide, ?_⟩
  · refine ⟨_, compilePattern_crops crops hc hlit, ?_⟩
    intro s
    rw [regexSearch_lits, any_map_fun]
    rfl
  · exact ⟨"regex metacharacter outside modelled fragment: (", rfl⟩

/-- Witness for C2's amended theorem at a concrete table and selections. -/
theorem filterEngine_empty_selections_witness :
    filterEngine [rClover] [] ["Corn"] =
        Except.ok ([rClover].filter (fun r =>
          regexSearch [[RTok.lit 'C', RTok.lit 'o', RTok.lit 'r', RTok.lit 'n']]
            r.targetCashCrops)) ∧
      filterEngine [rClover] ["Soil builder"] [] =
        Except.ok (applyGoalFilters [rClover] ["Soil builder"]) :=
  filterEngine_empty_selections [rClover] ["Soil builder"] ["Corn"]
    [[RTok.lit 'C', RTok.lit 'o', RTok.lit 'r', RTok.lit 'n']] rfl

/-- Witness for C4 at a concrete table and selections. -/
theorem filterResult_ordered_subsequence_witness :
    List.Sublist [rClover] [rClover] ∧
      (∀ r ∈ [rClover], ∀ g ∈ ["Soil builder"], flagIsYes r g = true) ∧
      ∃ bs, compilePattern (cropPattern ["Corn"]) = Except.ok bs ∧
        ∀ r ∈ [rClover], regexSearch bs r.targetCashCrops = true :=
  filterResult_ordered_subsequence [rClover] ["Soil builder"] ["Corn"] [rClover]
    (by simp) (by simp) rfl

/-- Witness for C5 at a concrete table and a transposed goal list. -/
theorem goalFilters_commute_witness :
    applyGoalFilters [rClover] ["Soil builder", "Weed fighter"] =
        applyGoalFilters [rClover] ["Weed fighter", "Soil builder"] ∧
      applyGoalFilters [rClover] ["Soil builder", "Weed fighter"] =
        [rClover].filter (fun r =>
          decide (∀ g ∈ ["Soil builder", "Weed fighter"],
            r ∈ [rClover].filter (fun x => flagIsYes x g))) :=
  goalFilters_commute [rClover] ["Soil builder", "Weed fighter"]
    ["Weed fighter", "Soil builder"] (List.Perm.swap "Weed fighter" "Soil builder" [])

/-- Witness for C6 at a concrete successful filter run. -/
theorem filterEngine_idempotent_witness :
    (∀ res2, filterEngine [rClover] ["Soil builder"] ["Corn"] = Except.ok res2 →
        res2 = [rClover]) ∧
      filterEngine [rClover] ["Soil builder"] ["Corn"] = Except.ok [rClover] :=
  filterEngine_idempotent [rClover] ["Soil builder"] ["Corn"] [rClover] rfl

/-- Witness for C7 at a concrete empty goal selection. -/
theorem empty_selection_guard_witness :
    buttonHandler (AppState.mk [rClover] "") [] ["Corn"] svcOk =
      Except.ok { state := AppState.mk [rClover] "",
                  displays := [Display.warn "Please select at least one goal and one or more cash crops."],
                  filterRan := false, serviceCalls := 0 } :=
  empty_selection_guard (AppState.mk [rClover] "") [] ["Corn"] svcOk (Or.inl rfl)

/-- Witness for C9 at a concrete handler run. -/
theorem table_never_mutated_witness :
    (HandlerResult.mk (AppState.mk [rClover] "")
        [Display.warn "Please select at least one goal and one or more cash crops."]
        false 0).state.df = (AppState.mk [rClover] "").df :=
  table_never_mutated (AppState.mk [rClover] "") [] [] svcOk
    (HandlerResult.mk (AppState.mk [rClover] "")
      [Display.warn "Please select at least one goal and one or more cash crops."]
      false 0) rfl

/-- Witness for C3 at a concrete faulting service call. -/
theorem service_fault_handled_witness :
    buttonHandler (AppState.mk [rClover] "prev") ["Soil builder"] ["Corn"]
        (fun _ => Except.error "connection error") =
      Except.ok { state := AppState.mk [rClover] "prev",
                  displays := [Display.success ("Found " ++ toString (List.length [rClover]) ++ " matching cover crop(s)."),
                    Display.table ([rClover].map displayRow),
                    Display.err ("AI Error: " ++ "connection error")],
                  filterRan := true, serviceCalls := 1 } ∧
      strContains ("AI Error: " ++ "connection error") "connection error" = true :=
  service_fault_handled (AppState.mk [rClover] "prev") ["Soil builder"] ["Corn"]
    "connection error" [rClover] (by simp) (by simp) rfl (by simp)

/-- Witness for C8: a concrete successful service call returns the first
choice's text verbatim. -/
theorem requester_fixed_params_witness :
    get_ai_summary svcOk "table" ["Soil builder"] ["Corn"] =
      Except.ok "Based on your farming goals, we recommend..." :=
  (requester_fixed_params svcOk "table" ["Soil builder"] ["Corn"]).2.2.2.2
    ⟨"Based on your farming goals, we recommend..."⟩ [] rfl

/-- Witness for C1's amended theorem: the membership condition evaluated at
the concrete record `rClover`. -/
theorem filter_membership_iff_witness :
    rClover ∈ [rClover] ∧ (∀ g ∈ ["Soil builder"], flagIsYes rClover g = true) ∧
      ∃ c ∈ ["Corn"], containsCI rClover.targetCashCrops c = true := by
  obtain ⟨res, hres, hiff⟩ :=
    filter_membership_iff [rClover] ["Soil builder"] ["Corn"] (by simp) (by simp) (by decide)
  have hres2 : res = [rClover] := by
    have h0 : filterEngine [rClover] ["Soil builder"] ["Corn"] = Except.ok [rClover] := rfl
    rw [h0] at hres
    injection hres with h
    exact h.symm
  refine (hiff rClover).mp ?_
  rw [hres2]
  exact List.mem_cons_self rClover []

/-- Witness for C10: the literal-selection agreement evaluated at a concrete
pattern and field. -/
theorem crop_regex_vs_substring_witness :
    regexSearch [[RTok.lit 'C', RTok.lit 'o', RTok.lit 'r', RTok.lit 'n']] "Rye, corn" =
      ["Corn"].any (fun c => containsCI "Rye, corn" (pyStrip c)) := by
  obtain ⟨bs, hbs, hall⟩ := (crop_regex_vs_substring ["Corn"] (by simp) (by decide)).1
  have hbs2 : bs = [[RTok.lit 'C', RTok.lit 'o', RTok.lit 'r', RTok.lit 'n']] := by
    have h0 : compilePattern (cropPattern ["Corn"]) =
        Except.ok [[RTok.lit 'C', RTok.lit 'o', RTok.lit 'r', RTok.lit 'n']] := rfl
    rw [h0] at hbs
    injection hbs with h
    exact h.symm
  rw [← hbs2]
  exact hall "Rye, corn"
